import Mathlib

/-!
Verification development for `mandelbrot-wgpu` (`src/main.rs`).

The program computes a Mandelbrot raster on a GPU via wgpu and writes a
binary PGM file.  The host-side logic of `main` is shallowly embedded
below:

* the workgroup edge-length computation
  `(device.limits().max_compute_invocations_per_workgroup as f32).sqrt() as u32`
  (lines 36-37) is modelled exactly over naturals: conversion of a `u32`
  to `f32` rounds to the nearest representable value (ties to even), the
  IEEE-754 `sqrt` is correctly rounded (ties to even), and the cast back
  to `u32` truncates toward zero;
* the buffer, bind-group-layout and bind-group descriptors (lines 52-136)
  are embedded as records mirroring the wgpu descriptor structs;
* the control flow of `main` from the edge-length computation to the final
  file write (lines 36-209) is embedded as a function from the run's
  environment inputs (the device limit, the outcome of the asynchronous
  map request, the mapped bytes, I/O successes) to an outcome, a trace of
  side-effect events, and the final state of the output file `image.pgm`.

Machine integers are modelled as `Nat`; the one arithmetic operation that
could overflow `u32` (the multiplication inside the `assert!` on line 38)
is modelled with checked (panicking) semantics, and every concrete input
used below keeps that product far below `2 ^ 32`, where checked and
wrapping semantics agree.
-/

namespace MandelbrotWgpu

/-- Fuel-driven base-2 logarithm: `log2Fuel f n` is `⌊log₂ n⌋` whenever
`f ≥ ⌊log₂ n⌋` (in particular whenever `f ≥ n`).  Structural recursion on
the fuel keeps it kernel-reducible. -/
def log2Fuel : Nat → Nat → Nat
  | 0, _ => 0
  | f + 1, n => if n < 2 then 0 else log2Fuel f (n / 2) + 1

/-- Floor of the base-2 logarithm, `⌊log₂ n⌋` (and `0` at `0`). -/
def nlog2 (n : Nat) : Nat := log2Fuel n n

/-- One Newton step chain with fuel: mirrors the classical integer
square-root iteration.  `sqrtFuel f n g` descends from the over-estimate
`g` to `⌊√n⌋`. -/
def sqrtFuel : Nat → Nat → Nat → Nat
  | 0, _, g => g
  | f + 1, n, g =>
    let g' := (g + n / g) / 2
    if g' < g then sqrtFuel f n g' else g

/-- Integer square root `⌊√n⌋`, kernel-reducible.  The initial guess
`2 ^ (⌊log₂ n⌋ / 2 + 1)` always lies above the root, so the Newton descent
in `sqrtFuel` reaches the floor of the square root quickly. -/
def nsqrt (n : Nat) : Nat :=
  if n ≤ 1 then n else sqrtFuel n n (2 ^ (nlog2 n / 2 + 1))

/-- Round the natural `m` to the nearest multiple of `d`, ties going to the
even multiple.  This is IEEE round-to-nearest-even restricted to a grid of
spacing `d`. -/
def roundNearestEvenMul (d m : Nat) : Nat :=
  let q := m / d
  let r := m % d
  if 2 * r < d then q * d
  else if d < 2 * r then (q + 1) * d
  else if q % 2 = 0 then q * d else (q + 1) * d

/-- Value of `m as f32` for `m : u32`: exact below `2 ^ 24`, otherwise
rounded (nearest, ties to even) onto the 24-bit-significand grid of the
binade of `m`.  Every `u32` lands on a natural number, so the result stays
in `Nat`. -/
def f32ofU32 (m : Nat) : Nat :=
  if m < 2 ^ 24 then m
  else roundNearestEvenMul (2 ^ (nlog2 m - 23)) m

/-- Floor of the correctly rounded (nearest, ties to even) IEEE-754 single
precision square root of the exactly representable natural `v ≤ 2 ^ 32`.
The true square root lies in the binade `[2 ^ j, 2 ^ (j + 1))`, where the
representable values are the multiples of `2 ^ (j - 23)`; `s0` is the
scaled floor of the root, the comparison against the squared midpoint
decides the rounding, and the final division truncates toward zero as the
`as u32` cast does. -/
def f32sqrtFloor (v : Nat) : Nat :=
  if v = 0 then 0
  else
    let j := nlog2 v / 2
    let s0 := nsqrt (v * 2 ^ (46 - 2 * j))
    let s :=
      if (2 * s0 + 1) ^ 2 < v * 2 ^ (48 - 2 * j) then s0 + 1
      else if v * 2 ^ (48 - 2 * j) < (2 * s0 + 1) ^ 2 then s0
      else if s0 % 2 = 0 then s0 else s0 + 1
    s / 2 ^ (23 - j)

/-- Embedding of `main.rs` lines 36-37: the workgroup edge length
`(max_compute_invocations_per_workgroup as f32).sqrt() as u32`. -/
def workgroup_width (maxInvocations : Nat) : Nat :=
  f32sqrtFloor (f32ofU32 maxInvocations)

/-- Constant `IMAGE_WIDTH` of `main.rs` line 8. -/
def IMAGE_WIDTH : Nat := 4000

/-- Constant `IMAGE_HEIGHT` of `main.rs` line 9. -/
def IMAGE_HEIGHT : Nat := 3000

/-- Embedding of the sample extraction of `main.rs` lines 186-193:
`data.iter().step_by(4).copied().collect::<Vec<_>>()` keeps the element at
every index that is a multiple of 4 (the first byte of each little-endian
4-byte device sample). -/
def step_by4 : List Nat → List Nat
  | [] => []
  | [a] => [a]
  | [a, _] => [a]
  | [a, _, _] => [a]
  | a :: _ :: _ :: _ :: rest => a :: step_by4 rest

/-- Little-endian byte serialization of a 32-bit value, as `bytemuck`
produces for each `u32` field. -/
def u32le (n : Nat) : List Nat :=
  [n % 256, n / 2 ^ 8 % 256, n / 2 ^ 16 % 256, n / 2 ^ 24 % 256]

/-- Fuel-driven most-significant-first decimal digit expansion (ASCII
codes); empty at `0`. -/
def asciiDigitsAux : Nat → Nat → List Nat
  | 0, _ => []
  | fuel + 1, n =>
    if n = 0 then [] else asciiDigitsAux fuel (n / 10) ++ [n % 10 + 48]

/-- ASCII bytes of the decimal rendering of `n`, as Rust's `Display` for
`u32` emits it. -/
def asciiDecimal (n : Nat) : List Nat :=
  if n = 0 then [48] else asciiDigitsAux n n

/-- Bytes of the header string built on `main.rs` line 204: `P5`, newline,
the width in decimal, a space, the height in decimal, newline, `255`,
newline. -/
def header (w h : Nat) : List Nat :=
  [80, 53, 10] ++ asciiDecimal w ++ [32] ++ asciiDecimal h ++
    [10, 50, 53, 53, 10]

/-- Buffer usage flags appearing in `main.rs` lines 104, 109 and 115. -/
inductive BufferUsage
  | UNIFORM | MAP_READ | COPY_DST | STORAGE | COPY_SRC
  deriving DecidableEq

/-- Device buffer descriptor: label, byte size, usage flags, and the
initial contents when the buffer is created with `create_buffer_init`. -/
structure BufferDesc where
  label : String
  size : Nat
  usage : List BufferUsage
  contents : Option (List Nat)
  deriving DecidableEq

/-- Embedding of the `image_size_buffer` creation of `main.rs` lines
98-105: a uniform buffer initialized with the two `u32` fields of
`Vec2U x: w, y: h` serialized little-endian by `bytemuck`. -/
def image_size_buffer (w h : Nat) : BufferDesc :=
  { label := "image size buffer"
    size := 8
    usage := [.UNIFORM]
    contents := some (u32le w ++ u32le h) }

/-- Embedding of the `staging_buffer` creation of `main.rs` lines 106-111:
`w * h * size_of u32` bytes, mappable for reading, copy destination. -/
def staging_buffer (w h : Nat) : BufferDesc :=
  { label := "staging buffer"
    size := w * h * 4
    usage := [.MAP_READ, .COPY_DST]
    contents := none }

/-- Embedding of the `storage_buffer` creation of `main.rs` lines 112-117:
the kernel's write target, sized like the staging buffer. -/
def storage_buffer (w h : Nat) : BufferDesc :=
  { label := "storage buffer"
    size := (staging_buffer w h).size
    usage := [.STORAGE, .COPY_SRC]
    contents := none }

/-- All device buffers `main` creates, in creation order (lines 98-117).
No other buffer exists in the program. -/
def buffers_created (w h : Nat) : List BufferDesc :=
  [image_size_buffer w h, staging_buffer w h, storage_buffer w h]

/-- Binding types of the two bind-group-layout entries (lines 52-79). -/
inductive BindingType
  | uniformBuffer
  | storageBuffer (readOnly : Bool)
  deriving DecidableEq

/-- One entry of a bind group layout (binding index and type). -/
structure LayoutEntry where
  binding : Nat
  ty : BindingType
  deriving DecidableEq

/-- Embedding of `image_size_bind_group_layout` (lines 52-65). -/
def image_size_bind_group_layout : List LayoutEntry :=
  [⟨0, .uniformBuffer⟩]

/-- Embedding of `storage_bind_group_layout` (lines 66-79). -/
def storage_bind_group_layout : List LayoutEntry :=
  [⟨0, .storageBuffer false⟩]

/-- Embedding of the `pipeline_layout` creation (lines 83-87): the ordered
list of bind group layouts, group 0 first. -/
def pipeline_layout : List (List LayoutEntry) :=
  [image_size_bind_group_layout, storage_bind_group_layout]

/-- Bind group descriptor: label, layout, and entries mapping each binding
index to the label of the bound buffer. -/
structure BindGroupDesc where
  label : String
  layout : List LayoutEntry
  entries : List (Nat × String)
  deriving DecidableEq

/-- Embedding of the `image_size_bind_group` creation (lines 121-128). -/
def image_size_bind_group : BindGroupDesc :=
  { label := "image size bind group"
    layout := image_size_bind_group_layout
    entries := [(0, "image size buffer")] }

/-- Embedding of the `storage_bind_group` creation (lines 129-136). -/
def storage_bind_group : BindGroupDesc :=
  { label := "storage bind group"
    layout := storage_bind_group_layout
    entries := [(0, "storage buffer")] }

/-- Embedding of the two `pass.set_bind_group` calls of lines 149-150, as
pairs of the group index passed and the bind group bound. -/
def bind_group_calls : List (Nat × BindGroupDesc) :=
  [(0, image_size_bind_group), (1, storage_bind_group)]

/-- Decide whether the bind group set at group index `g` binds (at any of
its entries) a buffer whose usage flags include `u`.  Buffer lookup goes
through the labels recorded in `buffers_created`. -/
def group_binds_usage (w h g : Nat) (u : BufferUsage) : Bool :=
  bind_group_calls.any fun p =>
    p.1 == g && p.2.entries.any fun en =>
      (buffers_created w h).any fun b =>
        b.label == en.2 && b.usage.contains u

/-- Workgroup counts passed to `dispatch_workgroups` on `main.rs` lines
152-156: the truncating integer divisions of the dimensions by the edge
length, with depth 1. -/
def dispatch_counts (w hgt e : Nat) : Nat × Nat × Nat :=
  (w / e, hgt / e, 1)

/-- Side-effect events of one run of `main`, in program order. -/
inductive Event
  | bufferAllocated (label : String) (size : Nat)
  | dispatchRecorded (groups : Nat × Nat × Nat)
  | copyRecorded (src dst : String) (size : Nat)
  | workSubmitted
  | mapAsyncRequested
  | devicePolled
  | mappedRangeRead (bytes : List Nat)
  | unmapped
  | fileOpenedTruncating (path : String)
  | fileWrote (bytes : List Nat)
  deriving DecidableEq

/-- Outcome delivered through the `map_async` completion channel:
`rx.recv()` errs when the channel closed without a result, and otherwise
yields the callback's `Result` (line 186). -/
inductive MapOutcome
  | channelClosed
  | mapFailed
  | mapOk
  deriving DecidableEq

/-- Environment inputs of one run: the device limit read on line 37, the
success of the shader-source read on line 48, the completion outcome and
the bytes `get_mapped_range` exposes (lines 186-192), and the success of
the three output-file operations (lines 199-206). -/
structure RunInputs where
  maxInvocations : Nat
  shaderLoadOk : Bool
  mapOutcome : MapOutcome
  mappedBytes : List Nat
  fileOpenOk : Bool
  headerWriteOk : Bool
  payloadWriteOk : Bool
  deriving DecidableEq

/-- How a run of `main` ends: normally, by a panic (`assert!` failure or
division by zero), or by an `?` early return naming the failing call. -/
inductive Outcome
  | ok
  | panicked
  | earlyErr (site : String)
  deriving DecidableEq

/-- State of the output file `image.pgm` when the run ends: untouched
(whatever existed before the run still exists), or opened-with-truncation
and holding the written bytes. -/
inductive FileState
  | untouched
  | written (bytes : List Nat)
  deriving DecidableEq

/-- Result of one embedded run. -/
structure RunResult where
  outcome : Outcome
  events : List Event
  file : FileState
  deriving DecidableEq

/-- The three buffer allocations of `main.rs` lines 98-117, as events. -/
def allocEvents (w hgt : Nat) : List Event :=
  [.bufferAllocated "image size buffer" 8,
   .bufferAllocated "staging buffer" (w * hgt * 4),
   .bufferAllocated "storage buffer" (w * hgt * 4)]

/-- Every device-side event up to and including the blocking poll (lines
98-178): the allocations, the recorded dispatch and copy, the submission,
the map request, and the poll. -/
def preEvents (w hgt e : Nat) : List Event :=
  allocEvents w hgt ++
    [.dispatchRecorded (dispatch_counts w hgt e),
     .copyRecorded "storage buffer" "staging buffer" (w * hgt * 4),
     .workSubmitted, .mapAsyncRequested, .devicePolled]

/-- Embedding of `main.rs` lines 36-209, from the workgroup-width
computation to the final file write, parameterized by the image dimensions
(the constants of lines 8-9) and the environment inputs.  Stages, in
source order:

* lines 36-40: compute the edge length, `assert!` that its square is at
  most the device limit (checked multiplication; every instantiation in
  this file keeps the product below `2 ^ 32`, where checked and wrapping
  `u32` semantics agree);
* line 48: the shader source read, whose failure exits via `?`;
* lines 98-117: buffer creation (the three buffers of
  `buffers_created`);
* lines 145-157: the compute pass records the dispatch with the
  truncating divisions `w / e` and `h / e` (a zero edge length would make
  the division panic);
* lines 160-169: the copy to staging is recorded and the batch is
  submitted;
* lines 172-178: the map request on the staging buffer and the blocking
  poll;
* lines 186-197: `rx.recv()?` then the inner `?` on the callback result;
  both failures return early, skipping the `unmap` of line 197; on
  success the mapped bytes are read and extracted with `step_by4` before
  `staging_buffer.unmap()`;
* lines 199-206: `image.pgm` is opened with `truncate(true)` and the
  header and payload are written in turn, each failure exiting via `?`.

The `debug!` argument of line 195 is not modelled: at the default `WARN`
filter level the tracing macro does not evaluate it. -/
def main_pipeline (w hgt : Nat) (inp : RunInputs) : RunResult :=
  let e := workgroup_width inp.maxInvocations
  if e * e ≤ inp.maxInvocations then
    if inp.shaderLoadOk then
      if e = 0 then
        ⟨.panicked, allocEvents w hgt, .untouched⟩
      else
        match inp.mapOutcome with
        | .channelClosed => ⟨.earlyErr "recv", preEvents w hgt e, .untouched⟩
        | .mapFailed =>
          ⟨.earlyErr "map_async", preEvents w hgt e, .untouched⟩
        | .mapOk =>
          let samples := step_by4 inp.mappedBytes
          let readEvents : List Event := preEvents w hgt e ++
            [.mappedRangeRead inp.mappedBytes, .unmapped]
          if inp.fileOpenOk then
            let openEvents : List Event := readEvents ++
              [.fileOpenedTruncating "image.pgm"]
            if inp.headerWriteOk then
              let headerEvents : List Event := openEvents ++
                [.fileWrote (header w hgt)]
              if inp.payloadWriteOk then
                ⟨.ok, headerEvents ++ [.fileWrote samples],
                 .written (header w hgt ++ samples)⟩
              else
                ⟨.earlyErr "write payload", headerEvents,
                 .written (header w hgt)⟩
            else
              ⟨.earlyErr "write header", openEvents, .written []⟩
          else
            ⟨.earlyErr "open", readEvents, .untouched⟩
    else
      ⟨.earlyErr "read shader source", [], .untouched⟩
  else
    ⟨.panicked, [], .untouched⟩

/-- Select the events that touch the staging buffer's mapping: reads of
the mapped range and the `unmap` call. -/
def touchesMapping : Event → Bool
  | .mappedRangeRead _ => true
  | .unmapped => true
  | _ => false

/-- Conditions under which a run of `main` reaches the `map_async` request
of line 175: the `assert!` of lines 38-40 passes, the shader source loads,
and the edge length is nonzero so the dispatch divisions do not panic. -/
def reachesMapRequest (inp : RunInputs) : Prop :=
  workgroup_width inp.maxInvocations * workgroup_width inp.maxInvocations
      ≤ inp.maxInvocations ∧
  inp.shaderLoadOk = true ∧
  0 < workgroup_width inp.maxInvocations

instance (inp : RunInputs) : Decidable (reachesMapRequest inp) := by
  unfold reachesMapRequest; infer_instance

/-- Select the single `unmap` event (the call of line 197). -/
def isUnmap : Event → Bool
  | .unmapped => true
  | _ => false

/-- Device-side side effects: buffer allocations, the recorded dispatch
and copy, and the queue submission. -/
def deviceSideEffect : Event → Bool
  | .bufferAllocated _ _ => true
  | .dispatchRecorded _ => true
  | .copyRecorded _ _ _ => true
  | .workSubmitted => true
  | _ => false

/-- Environment inputs of a run in which everything succeeds: the wgpu
default limit 256 (the limit `request_device` with a default descriptor
yields), a loadable shader, a successful mapping delivering `bytes`, and
successful file output. -/
def okInputs (bytes : List Nat) : RunInputs :=
  { maxInvocations := 256
    shaderLoadOk := true
    mapOutcome := .mapOk
    mappedBytes := bytes
    fileOpenOk := true
    headerWriteOk := true
    payloadWriteOk := true }

/-- Claim C1 as stated: whenever the computed edge length does not evenly
divide both dimensions, the run performs no device side effect (no
allocation, no dispatch, no submission) and fails, i.e. a configuration
fault precedes all device work. -/
def C1_claim : Prop :=
  ∀ (w hgt : Nat) (inp : RunInputs),
    ¬ (workgroup_width inp.maxInvocations ∣ w ∧
        workgroup_width inp.maxInvocations ∣ hgt) →
    (main_pipeline w hgt inp).events.all (fun ev => !deviceSideEffect ev)
        = true ∧
    (main_pipeline w hgt inp).outcome ≠ .ok

/-- Claim C2 as stated: every run that reaches the map request unmaps the
staging buffer exactly once. -/
def C2_claim : Prop :=
  ∀ (w hgt : Nat) (inp : RunInputs),
    Event.mapAsyncRequested ∈ (main_pipeline w hgt inp).events →
    (main_pipeline w hgt inp).events.countP (fun ev => isUnmap ev) = 1

/-- Claim C3 as stated: bind group 0 carries the mutable output storage
buffer, bind group 1 carries the image dimensions (a uniform), and some
further binding (slot 2 or a third bind group) carries the viewport
bounds. -/
def C3_claim : Prop :=
  group_binds_usage IMAGE_WIDTH IMAGE_HEIGHT 0 .STORAGE = true ∧
  group_binds_usage IMAGE_WIDTH IMAGE_HEIGHT 1 .UNIFORM = true ∧
  (bind_group_calls.any (fun p => decide (2 ≤ p.1)) = true ∨
    3 ≤ bind_group_calls.length)

/-- Claim C4 as stated: a run can only end successfully when the extracted
sample count equals the pixel count; a disagreement is reported as a
fault, never written out silently. -/
def C4_claim : Prop :=
  ∀ (w hgt : Nat) (inp : RunInputs),
    (main_pipeline w hgt inp).outcome = .ok →
    (step_by4 inp.mappedBytes).length = w * hgt

/-- Claim C9 as stated: when a fault occurs while producing the output
file (open or either write), the previously existing `image.pgm` is left
intact, as a write-to-temporary-then-rename scheme would guarantee. -/
def C9_claim : Prop :=
  ∀ (w hgt : Nat) (inp : RunInputs),
    ((main_pipeline w hgt inp).outcome = .earlyErr "open" ∨
     (main_pipeline w hgt inp).outcome = .earlyErr "write header" ∨
     (main_pipeline w hgt inp).outcome = .earlyErr "write payload") →
    (main_pipeline w hgt inp).file = .untouched

/-! ### Lemmas about the sample extraction -/

theorem step_by4_getElem? :
    ∀ (l : List Nat) (i : Nat), (step_by4 l)[i]? = l[4 * i]?
  | [], i => by simp [step_by4]
  | [_], 0 => rfl
  | [a], i + 1 => by
    rw [step_by4, List.getElem?_eq_none (by simp),
      List.getElem?_eq_none (by simp; omega)]
  | [a, b], 0 => rfl
  | [a, b], i + 1 => by
    rw [step_by4, List.getElem?_eq_none (by simp),
      List.getElem?_eq_none (by simp; omega)]
  | [a, b, c], 0 => rfl
  | [a, b, c], i + 1 => by
    rw [step_by4, List.getElem?_eq_none (by simp),
      List.getElem?_eq_none (by simp; omega)]
  | a :: b :: c :: d :: rest, 0 => by simp [step_by4]
  | a :: b :: c :: d :: rest, i + 1 => by
    have ih := step_by4_getElem? rest i
    have h4 : 4 * (i + 1) = 4 * i + 1 + 1 + 1 + 1 := by omega
    rw [step_by4, List.getElem?_cons_succ, h4, List.getElem?_cons_succ,
      List.getElem?_cons_succ, List.getElem?_cons_succ,
      List.getElem?_cons_succ, ih]

theorem step_by4_length :
    ∀ l : List Nat, (step_by4 l).length = (l.length + 3) / 4
  | [] => rfl
  | [_] => by simp [step_by4]
  | [_, _] => by simp [step_by4]
  | [_, _, _] => by simp [step_by4]
  | _ :: _ :: _ :: _ :: rest => by
    have ih := step_by4_length rest
    simp only [step_by4, List.length_cons, ih]
    omega

theorem step_by4_flatMap_u32le :
    ∀ samples : List Nat,
      step_by4 (samples.flatMap u32le) = samples.map (· % 256)
  | [] => rfl
  | s :: rest => by
    have ih := step_by4_flatMap_u32le rest
    rw [List.flatMap_cons, List.map_cons]
    show step_by4 (u32le s ++ rest.flatMap u32le) = _
    simp only [u32le, List.cons_append, List.nil_append, step_by4]
    show s % 256 :: step_by4 (rest.flatMap u32le) = _
    rw [ih]

theorem step_by4_congr_mod4 (l l' : List Nat)
    (hagree : ∀ j, j % 4 = 0 → l[j]? = l'[j]?) :
    step_by4 l = step_by4 l' := by
  apply List.ext_getElem?
  intro i
  rw [step_by4_getElem?, step_by4_getElem?]
  exact hagree (4 * i) (by omega)

/-! ### Specifications of the fuel-driven numeric helpers -/

theorem log2Fuel_spec :
    ∀ f n : Nat, 1 ≤ n → n ≤ f →
      2 ^ log2Fuel f n ≤ n ∧ n < 2 ^ (log2Fuel f n + 1)
  | 0, n, h1, h2 => absurd (Nat.le_trans h1 h2) (by omega)
  | f + 1, n, h1, h2 => by
    rw [log2Fuel]
    by_cases hn : n < 2
    · rw [if_pos hn]
      constructor <;> simp <;> omega
    · rw [if_neg hn]
      have ih := log2Fuel_spec f (n / 2) (by omega) (by omega)
      obtain ⟨ihl, ihr⟩ := ih
      constructor
      · calc 2 ^ (log2Fuel f (n / 2) + 1) = 2 * 2 ^ log2Fuel f (n / 2) := by
              ring
          _ ≤ 2 * (n / 2) := by omega
          _ ≤ n := by omega
      · calc n < 2 * (n / 2) + 2 := by omega
          _ ≤ 2 * 2 ^ (log2Fuel f (n / 2) + 1) := by omega
          _ = 2 ^ (log2Fuel f (n / 2) + 1 + 1) := by ring

theorem nlog2_spec (n : Nat) (h : 1 ≤ n) :
    2 ^ nlog2 n ≤ n ∧ n < 2 ^ (nlog2 n + 1) :=
  log2Fuel_spec n n h Nat.le.refl

theorem sqrtFuel_sq_le :
    ∀ f n g : Nat, g ≤ f → sqrtFuel f n g * sqrtFuel f n g ≤ n
  | 0, n, g, hg => by
    have : g = 0 := by omega
    subst this
    simp [sqrtFuel]
  | f + 1, n, g, hg => by
    rw [sqrtFuel]
    by_cases hlt : (g + n / g) / 2 < g
    · rw [if_pos hlt]
      exact sqrtFuel_sq_le f n ((g + n / g) / 2) (by omega)
    · rw [if_neg hlt]
      rcases Nat.eq_zero_or_pos g with h0 | h0
      · subst h0; simp
      · have hgd : g ≤ n / g := by omega
        calc g * g ≤ g * (n / g) := Nat.mul_le_mul_left g hgd
          _ ≤ n := by
              rw [Nat.mul_comm]
              exact Nat.div_mul_le_self n g

theorem sqrtFuel_lt_succ :
    ∀ f n g : Nat, n < (g + 1) * (g + 1) →
      n < (sqrtFuel f n g + 1) * (sqrtFuel f n g + 1)
  | 0, _, _, hn => hn
  | f + 1, n, g, hn => by
    rw [sqrtFuel]
    by_cases hlt : (g + n / g) / 2 < g
    · rw [if_pos hlt]
      apply sqrtFuel_lt_succ f n ((g + n / g) / 2)
      have hg : 1 ≤ g := by
        rcases Nat.eq_zero_or_pos g with h0 | h0
        · subst h0; simp at hlt
        · exact h0
      have hdm := Nat.div_add_mod n g
      have hmod : n % g < g := Nat.mod_lt n hg
      have h1 : n < g * (n / g + 1) := by
        have : g * (n / g + 1) = g * (n / g) + g := by ring
        omega
      have h2 : 4 * (g * (n / g + 1)) ≤
          (g + (n / g + 1)) * (g + (n / g + 1)) := by
        zify
        nlinarith [sq_nonneg ((g : Int) - (n / g + 1))]
      have h3 : g + (n / g + 1) ≤ 2 * ((g + n / g) / 2) + 2 := by omega
      have h4 : (g + (n / g + 1)) * (g + (n / g + 1)) ≤
          (2 * ((g + n / g) / 2) + 2) * (2 * ((g + n / g) / 2) + 2) :=
        Nat.mul_le_mul h3 h3
      have h5 : (2 * ((g + n / g) / 2) + 2) * (2 * ((g + n / g) / 2) + 2) =
          4 * (((g + n / g) / 2 + 1) * ((g + n / g) / 2 + 1)) := by ring
      omega
    · rw [if_neg hlt]
      exact hn

theorem nsqrt_sq_le (n : Nat) : nsqrt n * nsqrt n ≤ n := by
  rw [nsqrt]
  by_cases hn : n ≤ 1
  · rw [if_pos hn]
    interval_cases n <;> simp
  · rw [if_neg hn]
    apply sqrtFuel_sq_le
    have hk := nlog2_spec n (by omega)
    have hk1 : 1 ≤ nlog2 n := by
      by_contra hc
      have : nlog2 n = 0 := by omega
      rw [this] at hk
      omega
    calc 2 ^ (nlog2 n / 2 + 1) ≤ 2 ^ nlog2 n :=
        Nat.pow_le_pow_right (by omega) (by omega)
      _ ≤ n := hk.1

theorem nsqrt_lt_succ (n : Nat) : n < (nsqrt n + 1) * (nsqrt n + 1) := by
  rw [nsqrt]
  by_cases hn : n ≤ 1
  · rw [if_pos hn]
    interval_cases n <;> simp
  · rw [if_neg hn]
    apply sqrtFuel_lt_succ
    have hk := nlog2_spec n (by omega)
    have h1 : n < 2 ^ (nlog2 n + 1) := hk.2
    have h2 : nlog2 n + 1 ≤ 2 * (nlog2 n / 2) + 2 := by omega
    have h3 : (2 : Nat) ^ (nlog2 n + 1) ≤ 2 ^ (2 * (nlog2 n / 2) + 2) :=
      Nat.pow_le_pow_right (by omega) h2
    have h4 : (2 : Nat) ^ (2 * (nlog2 n / 2) + 2) =
        2 ^ (nlog2 n / 2 + 1) * 2 ^ (nlog2 n / 2 + 1) := by
      rw [← Nat.pow_add]
      congr 1
      omega
    have h5 : (2 : Nat) ^ (nlog2 n / 2 + 1) * 2 ^ (nlog2 n / 2 + 1) <
        (2 ^ (nlog2 n / 2 + 1) + 1) * (2 ^ (nlog2 n / 2 + 1) + 1) := by
      have := Nat.pos_pow_of_pos (nlog2 n / 2 + 1) (show 0 < 2 by omega)
      nlinarith
    omega

/-- Division bound used in the truncation analysis: a number whose square
is at most `m * D ^ 2` keeps that property after flooring by `D`. -/
theorem floor_div_sq_le (m D t : Nat) (hDpos : 0 < D)
    (ht : t * t ≤ m * (D * D)) : t / D * (t / D) ≤ m := by
  have h1 : t / D * D ≤ t := Nat.div_mul_le_self t D
  have h2 : t / D * D * (t / D * D) ≤ m * (D * D) :=
    Nat.le_trans (Nat.mul_le_mul h1 h1) ht
  have h3 : t / D * D * (t / D * D) = t / D * (t / D) * (D * D) := by ring
  rw [h3] at h2
  exact Nat.le_of_mul_le_mul_right h2 (Nat.mul_pos hDpos hDpos)

/-- Rounding-up bound: when the scaled square root `s0` of `m * D ^ 2`
stays below `D ^ 2` and the round-to-nearest comparison allows rounding
up, the floored quotient of `s0 + 1` by `D` still squares to at most `m`.
The interesting case is `D ∣ s0 + 1`: rounding up to the next integer
would force `D ^ 2 ≤ s0`, contradicting `s0 < D ^ 2`. -/
theorem round_up_div_sq_le (m D s0 : Nat) (hDpos : 0 < D)
    (hs0le : s0 * s0 ≤ m * (D * D)) (hs0D : s0 < D * D)
    (hkey : (2 * s0 + 1) ^ 2 ≤ 4 * (m * (D * D))) :
    (s0 + 1) / D * ((s0 + 1) / D) ≤ m := by
  have hfloor : (s0 + 1) / D * D ≤ s0 + 1 := Nat.div_mul_le_self (s0 + 1) D
  rcases Nat.lt_or_ge ((s0 + 1) / D * D) (s0 + 1) with hlt | hge
  · -- The quotient floor lands at or below s0: reuse the plain bound.
    have h1 : (s0 + 1) / D * D ≤ s0 := by omega
    have h2 : (s0 + 1) / D * D * ((s0 + 1) / D * D) ≤ m * (D * D) :=
      Nat.le_trans (Nat.mul_le_mul h1 h1) hs0le
    have h3 : (s0 + 1) / D * D * ((s0 + 1) / D * D) =
        (s0 + 1) / D * ((s0 + 1) / D) * (D * D) := by ring
    rw [h3] at h2
    exact Nat.le_of_mul_le_mul_right h2 (Nat.mul_pos hDpos hDpos)
  · -- D divides s0 + 1 exactly.
    have heq : (s0 + 1) / D * D = s0 + 1 := Nat.le_antisymm hfloor hge
    by_contra hc
    push_neg at hc
    have hq : m + 1 ≤ (s0 + 1) / D * ((s0 + 1) / D) := hc
    have h1 : (m + 1) * (D * D) ≤
        (s0 + 1) / D * ((s0 + 1) / D) * (D * D) :=
      Nat.mul_le_mul_right (D * D) hq
    have h2 : (s0 + 1) / D * ((s0 + 1) / D) * (D * D) =
        ((s0 + 1) / D * D) * ((s0 + 1) / D * D) := by ring
    rw [h2, heq] at h1
    -- Now (m + 1) D² ≤ (s0 + 1)², combine with the rounding inequality.
    have hkey2 : (2 * s0 + 1) * (2 * s0 + 1) ≤ 4 * (m * (D * D)) := by
      calc (2 * s0 + 1) * (2 * s0 + 1) = (2 * s0 + 1) ^ 2 := by ring
        _ ≤ 4 * (m * (D * D)) := hkey
    have hexp : 4 * ((m + 1) * (D * D)) ≤ 4 * ((s0 + 1) * (s0 + 1)) := by
      omega
    -- 4 (m+1) D² ≤ 4 (s0+1)² and (2 s0 + 1)² ≤ 4 m D² give 4 D² ≤ 4 s0 + 3.
    have hDsq : D * D ≤ s0 := by nlinarith
    omega

/-- Bounds on the scaled square root `nsqrt X` when `X = m * D ^ 2` with
`m < D ^ 2`: its square stays below `m * D ^ 2` and it stays below
`D ^ 2`. -/
theorem scaled_root_bounds (m D : Nat) (hDpos : 0 < D) (hmD : m < D * D)
    (X : Nat) (hX : X = m * (D * D)) :
    nsqrt X * nsqrt X ≤ m * (D * D) ∧ nsqrt X < D * D := by
  have hle : nsqrt X * nsqrt X ≤ m * (D * D) := by
    rw [← hX]
    exact nsqrt_sq_le X
  refine ⟨hle, ?_⟩
  by_contra hc
  push_neg at hc
  have h1 : D * D * (D * D) ≤ nsqrt X * nsqrt X := Nat.mul_le_mul hc hc
  have h2 : m * (D * D) < D * D * (D * D) :=
    mul_lt_mul_of_pos_right hmD (Nat.mul_pos hDpos hDpos)
  omega

/-- Branch analysis of the rounding step of `f32sqrtFloor`: whichever of
the two candidate significands the round-to-nearest comparison selects,
its floored quotient by the spacing `D` squares to at most `m`. -/
theorem f32sqrt_branch_le (m D s0 : Nat) (hDpos : 0 < D)
    (hs0le : s0 * s0 ≤ m * (D * D)) (hs0D : s0 < D * D) :
    ∀ s : Nat,
      s = s0 ∨ (s = s0 + 1 ∧ (2 * s0 + 1) ^ 2 ≤ 4 * (m * (D * D))) →
      s / D * (s / D) ≤ m := by
  intro s hs
  rcases hs with h | ⟨h, hkey⟩
  · rw [h]
    exact floor_div_sq_le m D s0 hDpos hs0le
  · rw [h]
    exact round_up_div_sq_le m D s0 hDpos hs0le hs0D hkey

/-- Core bound behind claim C7: below `2 ^ 24` a `u32` converts to `f32`
exactly, and truncating the correctly rounded square root can never
overshoot past the next integer, so the squared edge length stays within
the limit.  (Above `2 ^ 24` this fails; see the counterexample.) -/
theorem workgroup_width_sq_le_of_lt (m : Nat) (hm : m < 2 ^ 24) :
    workgroup_width m * workgroup_width m ≤ m := by
  rw [workgroup_width, f32ofU32, if_pos hm]
  rcases Nat.eq_zero_or_pos m with h0 | h0
  · subst h0; simp [f32sqrtFloor]
  rw [f32sqrtFloor, if_neg (by omega)]
  simp only []
  have hk := nlog2_spec m h0
  have hk23 : nlog2 m ≤ 23 := by
    by_contra hc
    have h24 : (2 : Nat) ^ 24 ≤ 2 ^ nlog2 m :=
      Nat.pow_le_pow_right (by omega) (by omega)
    omega
  have hj11 : nlog2 m / 2 ≤ 11 := by omega
  have hDD : m * 2 ^ (46 - 2 * (nlog2 m / 2)) =
      m * (2 ^ (23 - nlog2 m / 2) * 2 ^ (23 - nlog2 m / 2)) := by
    rw [← Nat.pow_add]
    congr 2
    omega
  have h4DD : m * 2 ^ (48 - 2 * (nlog2 m / 2)) =
      4 * (m * (2 ^ (23 - nlog2 m / 2) * 2 ^ (23 - nlog2 m / 2))) := by
    rw [← Nat.pow_add,
      show 4 * (m * 2 ^ (23 - nlog2 m / 2 + (23 - nlog2 m / 2))) =
        m * (4 * 2 ^ (23 - nlog2 m / 2 + (23 - nlog2 m / 2))) by ring,
      show (4 : Nat) = 2 ^ 2 from rfl, ← Nat.pow_add]
    congr 2
    omega
  have hDpos : 0 < (2 : Nat) ^ (23 - nlog2 m / 2) :=
    Nat.pos_pow_of_pos _ (by omega)
  have hD12 : (2 : Nat) ^ 12 ≤ 2 ^ (23 - nlog2 m / 2) :=
    Nat.pow_le_pow_right (by omega) (by omega)
  have hD24 : (2 : Nat) ^ 24 ≤
      2 ^ (23 - nlog2 m / 2) * 2 ^ (23 - nlog2 m / 2) := by
    calc (2 : Nat) ^ 24 = 2 ^ 12 * 2 ^ 12 := by norm_num
      _ ≤ 2 ^ (23 - nlog2 m / 2) * 2 ^ (23 - nlog2 m / 2) :=
        Nat.mul_le_mul hD12 hD12
  have hbounds := scaled_root_bounds m (2 ^ (23 - nlog2 m / 2)) hDpos
    (lt_of_lt_of_le hm hD24) (m * 2 ^ (46 - 2 * (nlog2 m / 2))) hDD
  obtain ⟨hs0le, hs0D⟩ := hbounds
  apply f32sqrt_branch_le m (2 ^ (23 - nlog2 m / 2))
    (nsqrt (m * 2 ^ (46 - 2 * (nlog2 m / 2)))) hDpos hs0le hs0D
  split_ifs with h1 h2 h3
  · right
    refine ⟨rfl, ?_⟩
    rw [h4DD] at h1
    omega
  · left; rfl
  · left; rfl
  · right
    refine ⟨rfl, ?_⟩
    rw [h4DD] at h2
    omega

/-! ### Claim theorems -/

/-- Claim C7, counterexample: the claim quantifies over every `u32` limit,
but at `m = 16785408 = 4097 ^ 2 - 1` the conversion to `f32` is exact, the
correctly rounded `f32` square root is exactly `4097.0` (the real root
`4096.99987...` lies within half an ulp of it), truncation keeps `4097`,
and `4097 ^ 2 > m`, so the `assert!` of `main.rs` lines 38-40 fails. -/
theorem claim_C7_counterexample :
    workgroup_width 16785408 = 4097 ∧
    ¬ (workgroup_width 16785408 * workgroup_width 16785408 ≤ 16785408) ∧
    ¬ (∀ m : Nat, m < 2 ^ 32 →
        workgroup_width m * workgroup_width m ≤ m) := by
  refine ⟨by decide, by decide, fun h => ?_⟩
  exact absurd (h 16785408 (by norm_num)) (by decide)

/-- Claim C7, amended: for every limit `m` below `2 ^ 24` (far above the
256 the program's default device descriptor yields, and above every real
device's invocation limit), the `u32` truncation of the `f32` square root
of `m` satisfies `edge ^ 2 ≤ m`, so the assertion of lines 38-40 passes;
the bound does not extend to all `u32` values (see the counterexample). -/
theorem claim_C7 (m : Nat) (hm : m < 2 ^ 24) :
    workgroup_width m * workgroup_width m ≤ m :=
  workgroup_width_sq_le_of_lt m hm

/-- Witness for C7 at the limit the program actually runs with. -/
theorem claim_C7_witness :
    256 < 2 ^ 24 ∧ workgroup_width 256 * workgroup_width 256 ≤ 256 :=
  ⟨by norm_num, claim_C7 256 (by norm_num)⟩

/-- Claim C10, confirmed: the byte emitted for pixel `i` is the mapped
byte at offset `4 * i` (first conjunct); when the mapped bytes are the
little-endian serialization of 32-bit samples, the extraction keeps
exactly each sample's least-significant byte (second conjunct); and the
other three bytes of each sample never influence the extraction or the
final file contents (third and fourth conjuncts). -/
theorem claim_C10 :
    (∀ (bytes : List Nat) (i : Nat), (step_by4 bytes)[i]? = bytes[4 * i]?)
      ∧
    (∀ samples : List Nat,
        step_by4 (samples.flatMap u32le) = samples.map (· % 256)) ∧
    (∀ bytes bytes' : List Nat,
        (∀ j, j % 4 = 0 → bytes[j]? = bytes'[j]?) →
        step_by4 bytes = step_by4 bytes') ∧
    (∀ (w hgt : Nat) (inp : RunInputs) (bytes' : List Nat),
        (∀ j, j % 4 = 0 → inp.mappedBytes[j]? = bytes'[j]?) →
        (main_pipeline w hgt { inp with mappedBytes := bytes' }).file =
          (main_pipeline w hgt inp).file) := by
  refine ⟨step_by4_getElem?, step_by4_flatMap_u32le, step_by4_congr_mod4,
    ?_⟩
  intro w hgt inp bytes' hagree
  have hsb : step_by4 bytes' = step_by4 inp.mappedBytes :=
    (step_by4_congr_mod4 inp.mappedBytes bytes' hagree).symm
  obtain ⟨mi, slo, mo, mb, fo, hw, pw⟩ := inp
  simp only at hsb
  simp only [main_pipeline, hsb]
  repeat first | rfl | split

/-- Witness for C10 on concrete byte lists: index 1 of the extraction is
the byte at offset 4; two little-endian samples reduce to their low
bytes; and lists agreeing at the multiples of 4 extract identically. -/
theorem claim_C10_witness :
    (step_by4 [9, 1, 2, 3, 7])[1]? = some 7 ∧
    step_by4 ([258, 513].flatMap u32le) = [2, 1] ∧
    step_by4 [9, 1, 2, 3] = step_by4 [9, 8, 8, 8] := by
  obtain ⟨h1, h2, h3, _⟩ := claim_C10
  refine ⟨?_, ?_, ?_⟩
  · rw [h1]; decide
  · rw [h2]; decide
  · refine h3 [9, 1, 2, 3] [9, 8, 8, 8] ?_
    intro j hj
    match j, hj with
    | 0, _ => rfl
    | 1, hj => exact absurd hj (by decide)
    | 2, hj => exact absurd hj (by decide)
    | 3, hj => exact absurd hj (by decide)
    | j + 4, _ =>
      rw [List.getElem?_eq_none (by simp),
        List.getElem?_eq_none (by simp)]

/-- Claim C8, confirmed: for positive dimensions divisible by the edge
length the dispatch arguments of lines 152-156 are exactly
`(w / e, hgt / e, 1)`, both counts are at least 1, the reference
configuration `4000 x 3000` with edge 8 yields `(500, 375, 1)`, and a run
reaching the dispatch records precisely these counts. -/
theorem claim_C8 (w hgt e : Nat) (hw : 0 < w) (hh : 0 < hgt)
    (hdw : e ∣ w) (hdh : e ∣ hgt) :
    dispatch_counts w hgt e = (w / e, hgt / e, 1) ∧
    1 ≤ w / e ∧ 1 ≤ hgt / e ∧
    dispatch_counts 4000 3000 8 = (500, 375, 1) ∧
    (∀ inp : RunInputs, reachesMapRequest inp →
      workgroup_width inp.maxInvocations = e →
      Event.dispatchRecorded (dispatch_counts w hgt e) ∈
        (main_pipeline w hgt inp).events) := by
  have hepos : 0 < e := by
    rcases Nat.eq_zero_or_pos e with h0 | h0
    · subst h0
      have : w = 0 := Nat.eq_zero_of_zero_dvd hdw
      omega
    · exact h0
  refine ⟨rfl, ?_, ?_, by decide, ?_⟩
  · exact (Nat.one_le_div_iff hepos).mpr (Nat.le_of_dvd hw hdw)
  · exact (Nat.one_le_div_iff hepos).mpr (Nat.le_of_dvd hh hdh)
  · intro inp hr hE
    obtain ⟨h1, h2, h3⟩ := hr
    rw [hE] at h1 h3
    have h3ne : e ≠ 0 := by omega
    rcases hmo : inp.mapOutcome with _ | _ | _ <;>
      cases hfo : inp.fileOpenOk <;>
      cases hhw : inp.headerWriteOk <;>
      cases hpw : inp.payloadWriteOk <;>
      simp [main_pipeline, hE, h1, h2, h3ne, hmo, hfo, hhw, hpw,
        preEvents, allocEvents]

/-- Witness for C8 at the reference dimensions with edge length 8 (the
edge a limit of 64 invocations produces). -/
theorem claim_C8_witness :
    dispatch_counts 4000 3000 8 = (500, 375, 1) ∧
    1 ≤ 4000 / 8 ∧ 1 ≤ 3000 / 8 ∧
    Event.dispatchRecorded (dispatch_counts 4000 3000 8) ∈
      (main_pipeline 4000 3000
        { okInputs [] with maxInvocations := 64 }).events := by
  have h := claim_C8 4000 3000 8 (by decide) (by decide) (by decide)
    (by decide)
  exact ⟨h.1, h.2.1, h.2.2.1,
    h.2.2.2.2 { okInputs [] with maxInvocations := 64 } (by decide)
      (by decide)⟩

/-- Claim C5, confirmed: a fully successful run writes exactly the header
bytes `P5`, newline, width, space, height, newline, `255`, newline,
immediately followed by the extracted pixel payload, and ends normally.
The third conjunct spells out the header's exact byte shape. -/
theorem claim_C5 (w hgt : Nat) (inp : RunInputs) (_hw : 0 < w)
    (_hh : 0 < hgt) (hr : reachesMapRequest inp)
    (hm : inp.mapOutcome = .mapOk) (hfo : inp.fileOpenOk = true)
    (hhw : inp.headerWriteOk = true) (hpw : inp.payloadWriteOk = true) :
    (main_pipeline w hgt inp).file =
      .written (header w hgt ++ step_by4 inp.mappedBytes) ∧
    (main_pipeline w hgt inp).outcome = .ok ∧
    header w hgt = [80, 53, 10] ++ asciiDecimal w ++ [32] ++
      asciiDecimal hgt ++ [10, 50, 53, 53, 10] := by
  obtain ⟨h1, h2, h3⟩ := hr
  have h3ne : workgroup_width inp.maxInvocations ≠ 0 := by omega
  refine ⟨?_, ?_, rfl⟩ <;>
    simp [main_pipeline, h1, h2, h3ne, hm, hfo, hhw, hpw]

/-- Witness for C5: the concrete 8 x 8 scenario.  A staging buffer of 256
zero bytes (64 four-byte samples) produces the 11 header bytes of
`P5`, newline, `8 8`, newline, `255`, newline, followed by 64 zero bytes,
75 bytes in total. -/
theorem claim_C5_witness :
    (main_pipeline 8 8 (okInputs (List.replicate 256 0))).file =
      .written ([80, 53, 10, 56, 32, 56, 10, 50, 53, 53, 10] ++
        List.replicate 64 0) ∧
    (([80, 53, 10, 56, 32, 56, 10, 50, 53, 53, 10] ++
        List.replicate 64 0 : List Nat)).length = 75 := by
  have h := claim_C5 8 8 (okInputs (List.replicate 256 0)) (by decide)
    (by decide) (by decide) rfl rfl rfl rfl
  constructor
  · rw [h.1]; decide
  · decide

/-- Claim C6, confirmed: on every run whose map request succeeds, the
events touching the staging buffer's mapping are exactly one read of the
mapped range followed by the single unmap, in that order: the copy out of
the mapped memory strictly precedes `unmap`, and nothing reads the
mapping afterwards. -/
theorem claim_C6 (w hgt : Nat) (inp : RunInputs)
    (hr : reachesMapRequest inp) (hm : inp.mapOutcome = .mapOk) :
    (main_pipeline w hgt inp).events.filter touchesMapping =
      [.mappedRangeRead inp.mappedBytes, .unmapped] := by
  obtain ⟨h1, h2, h3⟩ := hr
  have h3ne : workgroup_width inp.maxInvocations ≠ 0 := by omega
  cases hfo : inp.fileOpenOk <;> cases hhw : inp.headerWriteOk <;>
    cases hpw : inp.payloadWriteOk <;>
    simp [main_pipeline, h1, h2, h3ne, hm, hfo, hhw, hpw, preEvents,
      allocEvents, touchesMapping]

/-- Witness for C6 on a small successful run. -/
theorem claim_C6_witness :
    (main_pipeline 2 2 (okInputs (List.replicate 16 7))).events.filter
        touchesMapping =
      [.mappedRangeRead (List.replicate 16 7), .unmapped] :=
  claim_C6 2 2 (okInputs (List.replicate 16 7)) (by decide) rfl

/-- Claim C2, counterexample: a run whose completion channel closes
without a result (`rx.recv()` returns an error) reaches the map request
but never unmaps: the `?` on line 186 returns before the `unmap` of line
197, refuting the claim that every failure path unmaps exactly once. -/
theorem claim_C2_counterexample :
    Event.mapAsyncRequested ∈
      (main_pipeline 4000 3000
        { okInputs [] with mapOutcome := .channelClosed }).events ∧
    (main_pipeline 4000 3000
        { okInputs [] with mapOutcome := .channelClosed }).events.countP
      (fun ev => isUnmap ev) = 0 ∧
    ¬ C2_claim := by
  refine ⟨by decide, by decide, fun h => ?_⟩
  have := h 4000 3000 { okInputs [] with mapOutcome := .channelClosed }
    (by decide)
  exact absurd this (by decide)

/-- Claim C2, amended: every run reaching the map request unmaps exactly
once on the success path and zero times on the two failure paths (map
request rejected, or completion channel closed), where the `?` operators
return early before the `unmap` call. -/
theorem claim_C2 (w hgt : Nat) (inp : RunInputs)
    (hr : reachesMapRequest inp) :
    Event.mapAsyncRequested ∈ (main_pipeline w hgt inp).events ∧
    (main_pipeline w hgt inp).events.countP (fun ev => isUnmap ev) =
      (match inp.mapOutcome with
       | .mapOk => 1
       | .channelClosed => 0
       | .mapFailed => 0) := by
  obtain ⟨h1, h2, h3⟩ := hr
  have h3ne : workgroup_width inp.maxInvocations ≠ 0 := by omega
  rcases hmo : inp.mapOutcome with _ | _ | _ <;>
    cases hfo : inp.fileOpenOk <;> cases hhw : inp.headerWriteOk <;>
    cases hpw : inp.payloadWriteOk <;>
    simp [main_pipeline, h1, h2, h3ne, hmo, hfo, hhw, hpw, preEvents,
      allocEvents, isUnmap]

/-- Witness for C2 on the success path of a small run. -/
theorem claim_C2_witness :
    Event.mapAsyncRequested ∈
      (main_pipeline 2 2 (okInputs (List.replicate 16 7))).events ∧
    (main_pipeline 2 2 (okInputs (List.replicate 16 7))).events.countP
      (fun ev => isUnmap ev) = 1 :=
  claim_C2 2 2 (okInputs (List.replicate 16 7)) (by decide)

/-- Claim C1, counterexample: with the program's own configuration (the
wgpu default limit 256 gives edge length 16, and `4000 x 3000` is the
built-in image size), 16 does not divide 3000, yet the run reports no
configuration fault: buffers are allocated, the dispatch is recorded with
the truncated count `3000 / 16 = 187` (and `187 * 16 = 2992`, not 3000),
work is submitted, and the run even completes normally. -/
theorem claim_C1_counterexample :
    workgroup_width 256 = 16 ∧
    ¬ (16 ∣ 3000) ∧
    dispatch_counts 4000 3000 16 = (250, 187, 1) ∧
    187 * 16 ≠ 3000 ∧
    Event.dispatchRecorded (dispatch_counts 4000 3000 16) ∈
      (main_pipeline 4000 3000 (okInputs [])).events ∧
    Event.workSubmitted ∈ (main_pipeline 4000 3000 (okInputs [])).events ∧
    (main_pipeline 4000 3000 (okInputs [])).outcome = .ok ∧
    ¬ C1_claim := by
  refine ⟨by decide, by decide, by decide, by decide, by decide,
    by decide, by decide, fun h => ?_⟩
  have := h 4000 3000 (okInputs []) (by decide)
  exact absurd this.1 (by decide)

/-- Claim C1, amended: the code performs no divisibility validation at
all.  Whenever a run reaches the dispatch, even when the edge length does
not evenly divide the height, the buffers are allocated, the dispatch is
recorded with the silently truncating counts `(w / e, hgt / e, 1)`, and
the work is submitted; no configuration fault exists. -/
theorem claim_C1 (w hgt : Nat) (inp : RunInputs)
    (hr : reachesMapRequest inp)
    (_hnd : ¬ (workgroup_width inp.maxInvocations ∣ hgt)) :
    Event.bufferAllocated "staging buffer" (w * hgt * 4) ∈
      (main_pipeline w hgt inp).events ∧
    Event.dispatchRecorded
        (dispatch_counts w hgt (workgroup_width inp.maxInvocations)) ∈
      (main_pipeline w hgt inp).events ∧
    Event.workSubmitted ∈ (main_pipeline w hgt inp).events ∧
    dispatch_counts w hgt (workgroup_width inp.maxInvocations) =
      (w / workgroup_width inp.maxInvocations,
        hgt / workgroup_width inp.maxInvocations, 1) := by
  obtain ⟨h1, h2, h3⟩ := hr
  have h3ne : workgroup_width inp.maxInvocations ≠ 0 := by omega
  refine ⟨?_, ?_, ?_, rfl⟩ <;>
    rcases hmo : inp.mapOutcome with _ | _ | _ <;>
    cases hfo : inp.fileOpenOk <;> cases hhw : inp.headerWriteOk <;>
    cases hpw : inp.payloadWriteOk <;>
    simp [main_pipeline, h1, h2, h3ne, hmo, hfo, hhw, hpw, preEvents,
      allocEvents]

/-- Witness for C1 at the program's own configuration, where the edge
length 16 does not divide 3000. -/
theorem claim_C1_witness :
    ¬ (workgroup_width 256 ∣ 3000) ∧
    Event.bufferAllocated "staging buffer" (4000 * 3000 * 4) ∈
      (main_pipeline 4000 3000 (okInputs [])).events ∧
    dispatch_counts 4000 3000 (workgroup_width 256) =
      (4000 / workgroup_width 256, 3000 / workgroup_width 256, 1) := by
  have h := claim_C1 4000 3000 (okInputs []) (by decide) (by decide)
  exact ⟨by decide, h.1, h.2.2.2⟩

/-- Claim C3, counterexample: bind group 0 does not carry the storage
output (it carries the image-size uniform), and no binding at slot 2 nor
any third bind group exists, so both the slot-0 conjunct and the
viewport-bounds conjunct of the claim fail. -/
theorem claim_C3_counterexample :
    group_binds_usage IMAGE_WIDTH IMAGE_HEIGHT 0 .STORAGE = false ∧
    ¬ C3_claim := by
  refine ⟨by decide, fun h => ?_⟩
  exact absurd h.1 (by decide)

/-- Claim C3, amended: the binding contract the code implements is the
reverse of the claimed one.  Bind group 0 carries the image dimensions as
two little-endian `u32` values in a uniform buffer, bind group 1 carries
the mutable output storage buffer (sized one 4-byte sample per pixel),
only these two bind groups exist, the pipeline layout lists the uniform
layout before the storage layout, and no viewport-bounds buffer exists:
the only buffers are the dimensions uniform, the staging buffer and the
storage output. -/
theorem claim_C3 :
    group_binds_usage IMAGE_WIDTH IMAGE_HEIGHT 0 .UNIFORM = true ∧
    group_binds_usage IMAGE_WIDTH IMAGE_HEIGHT 1 .STORAGE = true ∧
    (image_size_buffer IMAGE_WIDTH IMAGE_HEIGHT).contents =
      some (u32le IMAGE_WIDTH ++ u32le IMAGE_HEIGHT) ∧
    (storage_buffer IMAGE_WIDTH IMAGE_HEIGHT).size =
      IMAGE_WIDTH * IMAGE_HEIGHT * 4 ∧
    bind_group_calls.length = 2 ∧
    (bind_group_calls.all (fun p => decide (p.1 < 2))) = true ∧
    pipeline_layout = [[⟨0, .uniformBuffer⟩], [⟨0, .storageBuffer false⟩]]
      ∧
    (buffers_created IMAGE_WIDTH IMAGE_HEIGHT).map (fun b => b.label) =
      ["image size buffer", "staging buffer", "storage buffer"] := by
  refine ⟨by decide, by decide, by decide, by decide, by decide,
    by decide, by decide, by decide⟩

/-- Claim C4, counterexample: the code validates nothing about the
extracted sample count.  If the mapped range held 100 bytes instead of
the expected `8 * 8 * 4 = 256`, the run would still finish successfully,
silently writing the truncated 25-byte payload (not 64), with no
size-mismatch fault anywhere. -/
theorem claim_C4_counterexample :
    (main_pipeline 8 8 (okInputs (List.replicate 100 0))).outcome = .ok ∧
    (step_by4 (List.replicate 100 0)).length = 25 ∧
    (main_pipeline 8 8 (okInputs (List.replicate 100 0))).file =
      .written (header 8 8 ++ List.replicate 25 0) ∧
    ¬ C4_claim := by
  refine ⟨by decide, by decide, by decide, fun h => ?_⟩
  have := h 8 8 (okInputs (List.replicate 100 0)) (by decide)
  exact absurd this (by decide)

/-- Claim C4, amended: when the mapped range carries the allocated
`w * hgt * 4` bytes (which the device contract guarantees for a
successful full-buffer mapping), the extraction yields exactly
`w * hgt` samples, one byte per pixel, and a successful mapping reads
exactly those mapped bytes; but the code itself performs no size
validation, so a disagreement would be written out unreported (see the
counterexample). -/
theorem claim_C4 (w hgt : Nat) (inp : RunInputs)
    (hlen : inp.mappedBytes.length = w * hgt * 4)
    (hr : reachesMapRequest inp) (hm : inp.mapOutcome = .mapOk) :
    (step_by4 inp.mappedBytes).length = w * hgt ∧
    Event.mappedRangeRead inp.mappedBytes ∈
      (main_pipeline w hgt inp).events := by
  constructor
  · rw [step_by4_length, hlen]
    omega
  · obtain ⟨h1, h2, h3⟩ := hr
    have h3ne : workgroup_width inp.maxInvocations ≠ 0 := by omega
    cases hfo : inp.fileOpenOk <;> cases hhw : inp.headerWriteOk <;>
      cases hpw : inp.payloadWriteOk <;>
      simp [main_pipeline, h1, h2, h3ne, hm, hfo, hhw, hpw, preEvents,
        allocEvents]

set_option maxRecDepth 4000 in
/-- Witness for C4: an 8 x 8 run whose mapped range has the allocated 256
bytes extracts exactly 64 samples. -/
theorem claim_C4_witness :
    (step_by4 (List.replicate 256 0)).length = 8 * 8 ∧
    Event.mappedRangeRead (List.replicate 256 0) ∈
      (main_pipeline 8 8 (okInputs (List.replicate 256 0))).events :=
  claim_C4 8 8 (okInputs (List.replicate 256 0)) (by simp [okInputs])
    (by decide) rfl

/-- Claim C9, counterexample: the code opens `image.pgm` directly with
truncation and no temporary file.  A run whose payload write fails ends
with a failure report but leaves a partial file holding only the 11
header bytes; whatever `image.pgm` previously held is already destroyed. -/
theorem claim_C9_counterexample :
    (main_pipeline 8 8
        { okInputs (List.replicate 256 0) with payloadWriteOk := false
          }).outcome = .earlyErr "write payload" ∧
    (main_pipeline 8 8
        { okInputs (List.replicate 256 0) with payloadWriteOk := false
          }).file = .written (header 8 8) ∧
    FileState.written (header 8 8) ≠ .untouched ∧
    ¬ C9_claim := by
  refine ⟨by decide, by decide, by decide, fun h => ?_⟩
  have := h 8 8
    { okInputs (List.replicate 256 0) with payloadWriteOk := false }
    (by right; right; decide)
  exact absurd this (by decide)

/-- Claim C9, amended: on a fault during the final write the process does
terminate with a failure report, but no temporary-path-and-rename scheme
exists: the file is opened with truncation in place, so a failed header
write leaves `image.pgm` empty and a failed payload write leaves it
holding only the header - in both cases the pre-existing image is already
destroyed and a partial file remains. -/
theorem claim_C9 (w hgt : Nat) (inp : RunInputs)
    (hr : reachesMapRequest inp) (hm : inp.mapOutcome = .mapOk)
    (hfo : inp.fileOpenOk = true) :
    (inp.headerWriteOk = false →
      (main_pipeline w hgt inp).outcome = .earlyErr "write header" ∧
      (main_pipeline w hgt inp).file = .written []) ∧
    (inp.headerWriteOk = true → inp.payloadWriteOk = false →
      (main_pipeline w hgt inp).outcome = .earlyErr "write payload" ∧
      (main_pipeline w hgt inp).file = .written (header w hgt)) := by
  obtain ⟨h1, h2, h3⟩ := hr
  have h3ne : workgroup_width inp.maxInvocations ≠ 0 := by omega
  constructor
  · intro hhw
    constructor <;>
      simp [main_pipeline, h1, h2, h3ne, hm, hfo, hhw]
  · intro hhw hpw
    constructor <;>
      simp [main_pipeline, h1, h2, h3ne, hm, hfo, hhw, hpw]

/-- Witness for C9: a failing payload write on an 8 x 8 run leaves only
the header in the file. -/
theorem claim_C9_witness :
    (main_pipeline 8 8
        { okInputs (List.replicate 256 0) with payloadWriteOk := false
          }).outcome = .earlyErr "write payload" ∧
    (main_pipeline 8 8
        { okInputs (List.replicate 256 0) with payloadWriteOk := false
          }).file = .written (header 8 8) :=
  (claim_C9 8 8
    { okInputs (List.replicate 256 0) with payloadWriteOk := false }
    (by decide) rfl rfl).2 rfl rfl

end MandelbrotWgpu
